import Mathlib

/-!
Shallow embedding of the heuristic extractive summarizer of
`src/audio_transcription_demo/utils.py` (`_sentence_split`,
`_sentence_score`, `format_meeting_minutes`) and proofs about it.

Modelling conventions:
* Python strings are Lean `String`s; `str.strip(chars)` is `pyStrip`
  (drop matching characters from both ends), `str.strip()` is
  `pyStripWs`, `str.split()` (split on whitespace runs, no empty
  tokens) is `pySplitWs`, `str.lower()` is `String.map Char.toLower`,
  `"\n".join(lines)` is `pyJoin "\n"`.
* `scored.sort(key=lambda x: x[2], reverse=True)` is CPython's stable
  sort; on a list whose position indices are pairwise distinct its
  result is the unique permutation sorted by the linear order
  "score descending, ties by position ascending", so it is embedded as
  `List.insertionSort rScore`.  Likewise `top.sort(key=lambda x: x[0])`
  on distinct indices is embedded as `List.insertionSort rIdx`.
* `scored[:max_sentences]` is Python slicing with an arbitrary integer
  bound, embedded as `pySliceTo` (negative bounds count from the end,
  clamped at zero).
* `_sentence_score` returns `float(len(tokens))`; a Python float of a
  token count is exact, so the score is embedded as the `Nat` count.
-/

namespace AudioTranscriptionDemo

/-- Embeds the module-level `_STOPWORDS` set of
`src/audio_transcription_demo/utils.py`, in source order. -/
def _STOPWORDS : List String :=
  ["the", "and", "a", "an", "of", "to", "in", "is", "it", "that",
   "for", "on", "with", "as", "this", "by", "at", "from", "or", "be",
   "are", "was", "were", "has", "have", "had", "we", "you", "they", "i"]

/-- Characters removed from both ends of a token by
`t.strip(".,!?;:()[]")` in `_sentence_score`. -/
def stripPunctSet (c : Char) : Bool :=
  c = '.' || c = ',' || c = '!' || c = '?' || c = ';' || c = ':' ||
  c = '(' || c = ')' || c = '[' || c = ']'

/-- Python `str.strip(chars)` on a character list: drop characters
satisfying `p` from the front and from the back. -/
def pyStripChars (p : Char → Bool) (l : List Char) : List Char :=
  ((l.dropWhile p).reverse.dropWhile p).reverse

/-- Python `str.strip(chars)` on a string. -/
def pyStrip (p : Char → Bool) (s : String) : String :=
  String.mk (pyStripChars p s.data)

/-- Python `str.strip()` (whitespace from both ends; ASCII whitespace
in this embedding). -/
def pyStripWs (s : String) : String :=
  pyStrip (fun c => c.isWhitespace) s

/-- Python `str.lower()` (per-character lowercasing). -/
def pyLower (s : String) : String :=
  String.mk (s.data.map Char.toLower)

/-- Python `str.split()` with no separator on a character list: the
tokens are the maximal runs of non-whitespace characters, in order;
`cur` is the (possibly empty) run being accumulated. -/
def pySplitWsChars : List Char → List Char → List String
  | [], cur => if cur = [] then [] else [String.mk cur]
  | c :: cs, cur =>
      if c.isWhitespace then
        (if cur = [] then [] else [String.mk cur]) ++ pySplitWsChars cs []
      else
        pySplitWsChars cs (cur ++ [c])

/-- Python `str.split()` with no separator: split on whitespace runs;
no empty tokens are produced. -/
def pySplitWs (s : String) : List String :=
  pySplitWsChars s.data []

/-- The sentence-terminator test `ch in {".", "?", "!"}` of
`_sentence_split`. -/
def sentPunct (c : Char) : Bool :=
  c = '.' || c = '?' || c = '!'

/-- The character-scanning loop of `_sentence_split`: `buf` is the
current buffer, `out` the sentences emitted so far. -/
def sentSplitAux : List Char → List Char → List String → List String
  | [], buf, out =>
      if buf = [] then out
      else
        let s := pyStripWs (String.mk buf)
        if s = "" then out else out ++ [s]
  | c :: cs, buf, out =>
      if sentPunct c then
        let s := pyStripWs (String.mk (buf ++ [c]))
        sentSplitAux cs [] (if s = "" then out else out ++ [s])
      else
        sentSplitAux cs (buf ++ [c]) out

/-- Embeds `_sentence_split` of `src/audio_transcription_demo/utils.py`:
split text into sentences at `.`, `?`, `!`, trimming each candidate and
dropping empty ones. -/
def _sentence_split (text : String) : List String :=
  sentSplitAux text.data [] []

/-- The token normalisation `t.strip(".,!?;:()[]").lower()` applied to
each whitespace token in `_sentence_score`. -/
def normToken (t : String) : String :=
  pyLower (pyStrip stripPunctSet t)

/-- Embeds `_sentence_score` of `src/audio_transcription_demo/utils.py`:
normalise every whitespace token, keep the non-empty non-stop-word ones,
and count them (the Python `float` of this count is exact). -/
def _sentence_score (sentence : String) : Nat :=
  (((pySplitWs sentence).map normToken).filter
    (fun t => decide (t ≠ "" ∧ t ∉ _STOPWORDS))).length

/-- The linear order realised by CPython's stable
`scored.sort(key=lambda x: x[2], reverse=True)` on triples
`(index, sentence, score)` with pairwise-distinct indices: score
descending, ties by original position ascending. -/
def rScore (a b : Nat × String × Nat) : Prop :=
  b.2.2 < a.2.2 ∨ (a.2.2 = b.2.2 ∧ a.1 ≤ b.1)

instance instDecRScore : DecidableRel rScore := by
  intro a b
  unfold rScore
  infer_instance

/-- The order realised by the stable `top.sort(key=lambda x: x[0])`:
original position ascending. -/
def rIdx (a b : Nat × String × Nat) : Prop :=
  a.1 ≤ b.1

instance instDecRIdx : DecidableRel rIdx := by
  intro a b
  unfold rIdx
  infer_instance

/-- Python slicing `l[:m]` for an arbitrary integer bound `m`: a
non-negative bound takes a prefix, a negative bound counts from the end
and clamps at zero. -/
def pySliceTo {α : Type} (l : List α) (m : Int) : List α :=
  if 0 ≤ m then l.take m.toNat else l.take (l.length - (-m).toNat)

/-- The list `scored = [(i, s, _sentence_score(s)) for i, s in
enumerate(sentences)]` built by `format_meeting_minutes`. -/
def scoredOf (t : String) : List (Nat × String × Nat) :=
  (_sentence_split t).enum.map (fun p => (p.1, p.2, _sentence_score p.2))

/-- The local `scored` after `scored.sort(key=lambda x: x[2],
reverse=True)` in `format_meeting_minutes`. -/
def sortedScored (t : String) : List (Nat × String × Nat) :=
  List.insertionSort rScore (scoredOf t)

/-- The local `top = scored[:max_sentences]` of
`format_meeting_minutes`. -/
def topOf (t : String) (m : Int) : List (Nat × String × Nat) :=
  pySliceTo (sortedScored t) m

/-- The local `top` after `top.sort(key=lambda x: x[0])` in
`format_meeting_minutes`. -/
def top2Of (t : String) (m : Int) : List (Nat × String × Nat) :=
  List.insertionSort rIdx (topOf t m)

/-- The `highlights` list of `format_meeting_minutes`: stable-sort the
scored triples by score descending, slice to `max_sentences`, re-sort by
position ascending, and project the sentence texts. -/
def selectedHighlights (t : String) (m : Int) : List String :=
  (top2Of t m).map (fun x => x.2.1)

/-- The `lines` list built by `format_meeting_minutes` before the final
`"\n".join(lines)`, exactly as appended in the source. -/
def minutesLines (hs : List String) : List String :=
  ["# Meeting minutes\n", "## Key points\n"]
    ++ hs.map (fun s => "- " ++ s)
    ++ ["\n## Action items (heuristic)\n",
        "_Auto-generated from important sentences; add owners/dates manually._\n"]
    ++ hs.map (fun s => "- [ ] (Owner?) " ++ s)

/-- Python `sep.join(lines)`. -/
def pyJoin (sep : String) : List String → String
  | [] => ""
  | [s] => s
  | s :: rest => s ++ sep ++ pyJoin sep rest

/-- Embeds `format_meeting_minutes` of
`src/audio_transcription_demo/utils.py` (default `max_sentences = 6`). -/
def format_meeting_minutes (transcript : String)
    (max_sentences : Int := 6) : String :=
  let sentences := _sentence_split transcript
  if sentences = [] then "No content to summarise."
  else
    let highlights := selectedHighlights transcript max_sentences
    if highlights = [] then "No content to summarise."
    else pyJoin "\n" (minutesLines highlights)

/-- The document layout stated by the specification, line by line: title,
blank line, "Key points" heading, blank line, one plain bullet per
sentence, blank line, "Action items" heading, blank line, the
auto-generated notice, blank line, one checklist bullet per sentence. -/
def specLines (hs : List String) : List String :=
  ["# Meeting minutes", "", "## Key points", ""]
    ++ hs.map (fun s => "- " ++ s)
    ++ ["", "## Action items (heuristic)", "",
        "_Auto-generated from important sentences; add owners/dates manually._",
        ""]
    ++ hs.map (fun s => "- [ ] (Owner?) " ++ s)

set_option maxRecDepth 4000

theorem pyJoin_cons_of_ne_nil (sep a : String) (l : List String)
    (h : l ≠ []) : pyJoin sep (a :: l) = a ++ sep ++ pyJoin sep l := by
  cases l with
  | nil => exact absurd rfl h
  | cons b t => rfl

theorem pyJoin_append_cons (sep : String) (l₁ : List String) (y : String)
    (l₂ : List String) (h : l₁ ≠ []) :
    pyJoin sep (l₁ ++ y :: l₂) =
      pyJoin sep l₁ ++ sep ++ pyJoin sep (y :: l₂) := by
  induction l₁ with
  | nil => exact absurd rfl h
  | cons a l ih =>
      cases l with
      | nil => rfl
      | cons b t =>
          have hbt : (b :: t : List String) ≠ [] := by simp
          have hbty : ((b :: t) ++ y :: l₂ : List String) ≠ [] := by simp
          calc pyJoin sep ((a :: b :: t) ++ y :: l₂)
              = a ++ sep ++ pyJoin sep ((b :: t) ++ y :: l₂) := by
                rw [List.cons_append]
                exact pyJoin_cons_of_ne_nil sep a ((b :: t) ++ y :: l₂) hbty
            _ = a ++ sep ++ (pyJoin sep (b :: t) ++ sep ++ pyJoin sep (y :: l₂)) := by
                rw [ih hbt]
            _ = pyJoin sep (a :: b :: t) ++ sep ++ pyJoin sep (y :: l₂) := by
                rw [pyJoin_cons_of_ne_nil sep a (b :: t) hbt]
                simp [String.append_assoc]

theorem glue (a b c : String) (h : a ++ b = c) (x : String) :
    a ++ (b ++ x) = c ++ x := by
  rw [← String.append_assoc, h]

theorem pyJoin_cons_cons (sep a b : String) (l : List String) :
    pyJoin sep (a :: b :: l) = a ++ sep ++ pyJoin sep (b :: l) := rfl

theorem minutes_join_canonical (x : String) (xs : List String) :
    pyJoin "\n" (minutesLines (x :: xs)) =
      "# Meeting minutes\n\n## Key points\n\n" ++
        (pyJoin "\n" (("- " ++ x) :: xs.map (fun s => "- " ++ s)) ++
          ("\n\n## Action items (heuristic)\n\n_Auto-generated from important sentences; add owners/dates manually._\n\n" ++
            pyJoin "\n"
              (("- [ ] (Owner?) " ++ x) ::
                xs.map (fun s => "- [ ] (Owner?) " ++ s)))) := by
  have hL : minutesLines (x :: xs) =
      "# Meeting minutes\n" :: "## Key points\n" ::
        ((("- " ++ x) :: xs.map (fun s => "- " ++ s)) ++
          "\n## Action items (heuristic)\n" ::
            "_Auto-generated from important sentences; add owners/dates manually._\n" ::
              ("- [ ] (Owner?) " ++ x) ::
                xs.map (fun s => "- [ ] (Owner?) " ++ s)) := by
    simp [minutesLines]
  rw [hL]
  rw [pyJoin_cons_cons]
  rw [pyJoin_cons_of_ne_nil "\n" "## Key points\n"
    ((("- " ++ x) :: xs.map (fun s => "- " ++ s)) ++
      "\n## Action items (heuristic)\n" ::
        "_Auto-generated from important sentences; add owners/dates manually._\n" ::
          ("- [ ] (Owner?) " ++ x) :: xs.map (fun s => "- [ ] (Owner?) " ++ s))
    (by simp)]
  rw [pyJoin_append_cons "\n" (("- " ++ x) :: xs.map (fun s => "- " ++ s))
    "\n## Action items (heuristic)\n"
    ("_Auto-generated from important sentences; add owners/dates manually._\n" ::
      ("- [ ] (Owner?) " ++ x) :: xs.map (fun s => "- [ ] (Owner?) " ++ s))
    (by simp)]
  rw [pyJoin_cons_cons, pyJoin_cons_cons]
  simp only [String.append_assoc]
  rw [glue "_Auto-generated from important sentences; add owners/dates manually._\n"
    "\n" "_Auto-generated from important sentences; add owners/dates manually._\n\n" rfl]
  rw [glue "\n## Action items (heuristic)\n" "\n"
    "\n## Action items (heuristic)\n\n" rfl]
  rw [glue "\n## Action items (heuristic)\n\n"
    "_Auto-generated from important sentences; add owners/dates manually._\n\n"
    "\n## Action items (heuristic)\n\n_Auto-generated from important sentences; add owners/dates manually._\n\n" rfl]
  rw [glue "\n"
    "\n## Action items (heuristic)\n\n_Auto-generated from important sentences; add owners/dates manually._\n\n"
    "\n\n## Action items (heuristic)\n\n_Auto-generated from important sentences; add owners/dates manually._\n\n" rfl]
  rw [glue "## Key points\n" "\n" "## Key points\n\n" rfl]
  rw [glue "\n" "## Key points\n\n" "\n## Key points\n\n" rfl]
  rw [glue "# Meeting minutes\n" "\n## Key points\n\n"
    "# Meeting minutes\n\n## Key points\n\n" rfl]

theorem spec_join_canonical (x : String) (xs : List String) :
    pyJoin "\n" (specLines (x :: xs)) =
      "# Meeting minutes\n\n## Key points\n\n" ++
        (pyJoin "\n" (("- " ++ x) :: xs.map (fun s => "- " ++ s)) ++
          ("\n\n## Action items (heuristic)\n\n_Auto-generated from important sentences; add owners/dates manually._\n\n" ++
            pyJoin "\n"
              (("- [ ] (Owner?) " ++ x) ::
                xs.map (fun s => "- [ ] (Owner?) " ++ s)))) := by
  have hS : specLines (x :: xs) =
      "# Meeting minutes" :: "" :: "## Key points" :: "" ::
        ((("- " ++ x) :: xs.map (fun s => "- " ++ s)) ++
          "" :: "## Action items (heuristic)" :: "" ::
            "_Auto-generated from important sentences; add owners/dates manually._" ::
              "" :: ("- [ ] (Owner?) " ++ x) ::
                xs.map (fun s => "- [ ] (Owner?) " ++ s)) := by
    simp [specLines]
  rw [hS]
  rw [pyJoin_cons_cons, pyJoin_cons_cons, pyJoin_cons_cons]
  rw [pyJoin_cons_of_ne_nil "\n" ""
    ((("- " ++ x) :: xs.map (fun s => "- " ++ s)) ++
      "" :: "## Action items (heuristic)" :: "" ::
        "_Auto-generated from important sentences; add owners/dates manually._" ::
          "" :: ("- [ ] (Owner?) " ++ x) ::
            xs.map (fun s => "- [ ] (Owner?) " ++ s))
    (by simp)]
  rw [pyJoin_append_cons "\n" (("- " ++ x) :: xs.map (fun s => "- " ++ s))
    ""
    ("## Action items (heuristic)" :: "" ::
      "_Auto-generated from important sentences; add owners/dates manually._" ::
        "" :: ("- [ ] (Owner?) " ++ x) ::
          xs.map (fun s => "- [ ] (Owner?) " ++ s))
    (by simp)]
  rw [pyJoin_cons_cons, pyJoin_cons_cons, pyJoin_cons_cons, pyJoin_cons_cons,
    pyJoin_cons_cons]
  simp only [String.append_assoc]
  rw [glue "" "\n" "\n" rfl]
  rw [glue "" "\n" "\n" rfl]
  rw [glue "" "\n" "\n" rfl]
  rw [glue "" "\n" "\n" rfl]
  rw [glue "" "\n" "\n" rfl]
  rw [glue "\n" "\n" "\n\n" rfl]
  rw [glue "\n" "\n" "\n\n" rfl]
  rw [glue "\n" "\n" "\n\n" rfl]
  rw [glue "\n" "\n" "\n\n" rfl]
  rw [glue "\n" "\n" "\n\n" rfl]
  rw [glue "## Key points" "\n\n" "## Key points\n\n" rfl]
  rw [glue "\n\n" "## Key points\n\n" "\n\n## Key points\n\n" rfl]
  rw [glue "# Meeting minutes" "\n\n## Key points\n\n"
    "# Meeting minutes\n\n## Key points\n\n" rfl]
  rw [glue "## Action items (heuristic)" "\n\n"
    "## Action items (heuristic)\n\n" rfl]
  rw [glue "_Auto-generated from important sentences; add owners/dates manually._"
    "\n\n"
    "_Auto-generated from important sentences; add owners/dates manually._\n\n" rfl]
  rw [glue "## Action items (heuristic)\n\n"
    "_Auto-generated from important sentences; add owners/dates manually._\n\n"
    "## Action items (heuristic)\n\n_Auto-generated from important sentences; add owners/dates manually._\n\n" rfl]
  rw [glue "\n\n"
    "## Action items (heuristic)\n\n_Auto-generated from important sentences; add owners/dates manually._\n\n"
    "\n\n## Action items (heuristic)\n\n_Auto-generated from important sentences; add owners/dates manually._\n\n" rfl]

theorem render_eq (x : String) (xs : List String) :
    pyJoin "\n" (minutesLines (x :: xs)) = pyJoin "\n" (specLines (x :: xs)) := by
  rw [minutes_join_canonical, spec_join_canonical]

theorem bullets_head (x : String) (xs : List String) :
    ∃ r, pyJoin "\n" (("- " ++ x) :: xs.map (fun s => "- " ++ s)) = "- " ++ r := by
  cases xs with
  | nil => exact ⟨x, rfl⟩
  | cons b bs =>
      refine ⟨x ++ ("\n" ++ pyJoin "\n" (("- " ++ b) :: bs.map (fun s => "- " ++ s))), ?_⟩
      rw [List.map_cons, pyJoin_cons_cons]
      simp [String.append_assoc]

theorem minutes_join_prefix (x : String) (xs : List String) :
    ∃ r, pyJoin "\n" (minutesLines (x :: xs)) =
      "# Meeting minutes\n\n## Key points\n\n- " ++ r := by
  obtain ⟨r, hr⟩ := bullets_head x xs
  refine ⟨r ++
    ("\n\n## Action items (heuristic)\n\n_Auto-generated from important sentences; add owners/dates manually._\n\n" ++
      pyJoin "\n"
        (("- [ ] (Owner?) " ++ x) :: xs.map (fun s => "- [ ] (Owner?) " ++ s))), ?_⟩
  rw [minutes_join_canonical, hr]
  simp only [String.append_assoc]
  rw [glue "# Meeting minutes\n\n## Key points\n\n" "- "
    "# Meeting minutes\n\n## Key points\n\n- " rfl]

theorem minutes_join_ne_fallback (x : String) (xs : List String) :
    pyJoin "\n" (minutesLines (x :: xs)) ≠ "No content to summarise." := by
  obtain ⟨r, hr⟩ := minutes_join_prefix x xs
  intro h
  rw [hr] at h
  have h2 := congrArg String.length h
  rw [String.length_append] at h2
  have hp : ("# Meeting minutes\n\n## Key points\n\n- " : String).length = 36 := by
    decide
  have hf : ("No content to summarise." : String).length = 24 := by decide
  rw [hp, hf] at h2
  omega

theorem selectedHighlights_nil_of_split_nil (t : String) (m : Int)
    (h : _sentence_split t = []) : selectedHighlights t m = [] := by
  simp [selectedHighlights, top2Of, topOf, sortedScored, scoredOf, h, pySliceTo,
    List.insertionSort]

theorem format_of_split_nil (t : String) (m : Int)
    (h : _sentence_split t = []) :
    format_meeting_minutes t m = "No content to summarise." := by
  simp [format_meeting_minutes, h]

theorem format_of_highlights_nil (t : String) (m : Int)
    (h : selectedHighlights t m = []) :
    format_meeting_minutes t m = "No content to summarise." := by
  by_cases hs : _sentence_split t = []
  · exact format_of_split_nil t m hs
  · simp [format_meeting_minutes, hs, h]

theorem format_of_highlights_ne_nil (t : String) (m : Int)
    (h : selectedHighlights t m ≠ []) :
    format_meeting_minutes t m =
      pyJoin "\n" (minutesLines (selectedHighlights t m)) := by
  have hs : _sentence_split t ≠ [] := fun hnil =>
    h (selectedHighlights_nil_of_split_nil t m hnil)
  simp [format_meeting_minutes, hs, h]

instance instTotalRScore : IsTotal (Nat × String × Nat) rScore := by
  constructor
  intro a b
  unfold rScore
  omega

instance instTransRScore : IsTrans (Nat × String × Nat) rScore := by
  constructor
  intro a b c hab hbc
  unfold rScore at hab hbc ⊢
  omega

instance instTotalRIdx : IsTotal (Nat × String × Nat) rIdx := by
  constructor
  intro a b
  unfold rIdx
  omega

instance instTransRIdx : IsTrans (Nat × String × Nat) rIdx := by
  constructor
  intro a b c hab hbc
  unfold rIdx at hab hbc ⊢
  omega

/-- Strict version of `rIdx`, used to pin down sorted permutations of
lists whose position indices are pairwise distinct. -/
def rIdxLt (a b : Nat × String × Nat) : Prop :=
  a.1 < b.1

instance instAntisymmRIdxLt : IsAntisymm (Nat × String × Nat) rIdxLt := by
  constructor
  intro a b h1 h2
  unfold rIdxLt at h1 h2
  omega

theorem scoredOf_map_fst (t : String) :
    (scoredOf t).map (fun p => p.1) = List.range (_sentence_split t).length := by
  unfold scoredOf
  rw [List.map_map]
  have h : ((fun p : Nat × String × Nat => p.1) ∘
      (fun p : Nat × String => (p.1, p.2, _sentence_score p.2))) =
        (Prod.fst : Nat × String → Nat) := rfl
  rw [h, List.enum_map_fst]

theorem scoredOf_map_snd (t : String) :
    (scoredOf t).map (fun p => p.2.1) = _sentence_split t := by
  unfold scoredOf
  rw [List.map_map]
  have h : ((fun p : Nat × String × Nat => p.2.1) ∘
      (fun p : Nat × String => (p.1, p.2, _sentence_score p.2))) =
        (Prod.snd : Nat × String → String) := rfl
  rw [h, List.enum_map_snd]

theorem scoredOf_length (t : String) :
    (scoredOf t).length = (_sentence_split t).length := by
  unfold scoredOf
  rw [List.length_map, List.enum_length]

theorem sortedScored_length (t : String) :
    (sortedScored t).length = (_sentence_split t).length := by
  unfold sortedScored
  rw [List.length_insertionSort, scoredOf_length]

theorem scoredOf_sorted_lt (t : String) : List.Sorted rIdxLt (scoredOf t) := by
  have h := List.pairwise_lt_range (_sentence_split t).length
  rw [← List.enum_map_fst (_sentence_split t), List.pairwise_map] at h
  unfold scoredOf List.Sorted
  rw [List.pairwise_map]
  exact h.imp (fun hab => hab)

theorem sortedScored_perm (t : String) :
    (sortedScored t).Perm (scoredOf t) :=
  List.perm_insertionSort rScore (scoredOf t)

theorem sortedScored_sorted (t : String) :
    List.Sorted rScore (sortedScored t) :=
  List.sorted_insertionSort rScore (scoredOf t)

theorem pySliceTo_sublist {α : Type} (l : List α) (m : Int) :
    (pySliceTo l m).Sublist l := by
  unfold pySliceTo
  split
  · exact List.take_sublist _ _
  · exact List.take_sublist _ _

theorem topOf_sublist (t : String) (m : Int) :
    (topOf t m).Sublist (sortedScored t) :=
  pySliceTo_sublist (sortedScored t) m

theorem top2Of_perm_topOf (t : String) (m : Int) :
    (top2Of t m).Perm (topOf t m) :=
  List.perm_insertionSort rIdx (topOf t m)

theorem top2Of_subperm (t : String) (m : Int) :
    (top2Of t m).Subperm (scoredOf t) :=
  ((top2Of_perm_topOf t m).subperm).trans
    (((topOf_sublist t m).subperm).trans ((sortedScored_perm t).subperm))

theorem top2Of_fst_nodup (t : String) (m : Int) :
    ((top2Of t m).map (fun p => p.1)).Nodup := by
  have h0 : ((scoredOf t).map (fun p => p.1)).Nodup := by
    rw [scoredOf_map_fst]
    exact List.nodup_range _
  have h1 : ((sortedScored t).map (fun p => p.1)).Nodup :=
    ((sortedScored_perm t).map _).nodup_iff.mpr h0
  have h2 : ((topOf t m).map (fun p => p.1)).Nodup :=
    List.Nodup.sublist (List.Sublist.map _ (topOf_sublist t m)) h1
  exact ((top2Of_perm_topOf t m).map _).nodup_iff.mpr h2

theorem top2Of_sorted_le (t : String) (m : Int) :
    List.Sorted rIdx (top2Of t m) :=
  List.sorted_insertionSort rIdx (topOf t m)

theorem sorted_lt_of_le_nodup (l : List (Nat × String × Nat))
    (h1 : List.Sorted rIdx l) (h2 : (l.map (fun p => p.1)).Nodup) :
    List.Sorted rIdxLt l := by
  have h2a : List.Pairwise (fun a b : Nat => a ≠ b) (l.map (fun p => p.1)) := h2
  rw [List.pairwise_map] at h2a
  have h3 := List.Pairwise.and h1 h2a
  exact h3.imp (fun hab => Nat.lt_of_le_of_ne hab.1 hab.2)

theorem top2Of_sorted_lt (t : String) (m : Int) :
    List.Sorted rIdxLt (top2Of t m) :=
  sorted_lt_of_le_nodup _ (top2Of_sorted_le t m) (top2Of_fst_nodup t m)

theorem top2Of_sublist_scored (t : String) (m : Int) :
    (top2Of t m).Sublist (scoredOf t) :=
  List.sublist_of_subperm_of_sorted (top2Of_subperm t m)
    (top2Of_sorted_lt t m) (scoredOf_sorted_lt t)

theorem highlights_sublist (t : String) (m : Int) :
    (selectedHighlights t m).Sublist (_sentence_split t) := by
  have h := List.Sublist.map (fun p : Nat × String × Nat => p.2.1)
    (top2Of_sublist_scored t m)
  rw [scoredOf_map_snd] at h
  exact h

theorem highlights_length (t : String) (m : Int) (hm : 0 ≤ m) :
    (selectedHighlights t m).length =
      min m.toNat (_sentence_split t).length := by
  unfold selectedHighlights top2Of topOf pySliceTo
  rw [if_pos hm, List.length_map, List.length_insertionSort, List.length_take,
    sortedScored_length]

theorem highlights_all (t : String) (m : Int)
    (hm : ((_sentence_split t).length : Int) ≤ m) :
    selectedHighlights t m = _sentence_split t := by
  have hm0 : 0 ≤ m := by omega
  have htop : topOf t m = sortedScored t := by
    unfold topOf pySliceTo
    rw [if_pos hm0]
    apply List.take_of_length_le
    rw [sortedScored_length]
    omega
  have hperm : (top2Of t m).Perm (scoredOf t) := by
    exact (top2Of_perm_topOf t m).trans (htop ▸ sortedScored_perm t)
  have heq : top2Of t m = scoredOf t :=
    List.eq_of_perm_of_sorted hperm (top2Of_sorted_lt t m) (scoredOf_sorted_lt t)
  unfold selectedHighlights
  rw [heq, scoredOf_map_snd]

theorem highlights_nil_iff (t : String) (m : Int) :
    selectedHighlights t m = [] ↔ topOf t m = [] := by
  unfold selectedHighlights
  rw [List.map_eq_nil_iff]
  constructor
  · intro h
    have hl := (top2Of_perm_topOf t m).length_eq
    rw [h] at hl
    exact List.length_eq_zero.mp hl.symm
  · intro h
    rw [top2Of, h]
    rfl

theorem topOf_nil_iff_nonpos (t : String) (m : Int)
    (hne : _sentence_split t ≠ []) (hm : m ≤ 0) :
    topOf t m = [] ↔
      (m = 0 ∨ ((_sentence_split t).length : Int) + m ≤ 0) := by
  have hn : (_sentence_split t).length ≠ 0 := fun h =>
    hne (List.length_eq_zero.mp h)
  have hnil2 : sortedScored t ≠ [] := by
    intro h
    have hl := congrArg List.length h
    rw [sortedScored_length] at hl
    exact hn hl
  unfold topOf pySliceTo
  by_cases h0 : 0 ≤ m
  · have hm0 : m = 0 := le_antisymm hm h0
    subst hm0
    simp [hn]
  · rw [if_neg h0]
    rw [List.take_eq_nil_iff, sortedScored_length]
    constructor
    · rintro (h | h)
      · right
        omega
      · exact absurd h hnil2
    · rintro (h | h)
      · omega
      · left
        omega

theorem pyStripChars_eq_nil_iff (p : Char → Bool) (l : List Char) :
    pyStripChars p l = [] ↔ ∀ c ∈ l, p c = true := by
  unfold pyStripChars
  rw [List.reverse_eq_nil_iff, List.dropWhile_eq_nil_iff]
  constructor
  · intro h c hc
    have hsplit := List.takeWhile_append_dropWhile p l
    rw [← hsplit] at hc
    rcases List.mem_append.mp hc with h1 | h1
    · exact List.mem_takeWhile_imp h1
    · exact h c (List.mem_reverse.mpr h1)
  · intro h c hc
    have h2 : List.dropWhile p l = [] := by
      rw [List.dropWhile_eq_nil_iff]
      exact h
    rw [h2] at hc
    simp at hc

/-- The property every emitted sentence keeps: non-empty and containing
at least one non-whitespace character. -/
def sentProp (s : String) : Prop :=
  s ≠ "" ∧ ∃ c ∈ s.data, c.isWhitespace = false

theorem sentProp_strip (x : String) (h : pyStripWs x ≠ "") :
    sentProp (pyStripWs x) := by
  refine ⟨h, ?_⟩
  have hdata : (pyStripWs x).data =
      ((x.data.dropWhile (fun c => c.isWhitespace)).reverse.dropWhile
        (fun c => c.isWhitespace)).reverse := rfl
  have hne : (x.data.dropWhile (fun c => c.isWhitespace)).reverse.dropWhile
      (fun c => c.isWhitespace) ≠ [] := by
    intro hnil
    apply h
    rw [String.ext_iff]
    rw [hdata, hnil]
    rfl
  have hhead := List.head_dropWhile_not (fun c => c.isWhitespace)
    (x.data.dropWhile (fun c => c.isWhitespace)).reverse hne
  refine ⟨((x.data.dropWhile (fun c => c.isWhitespace)).reverse.dropWhile
    (fun c => c.isWhitespace)).head hne, ?_, hhead⟩
  rw [hdata, List.mem_reverse]
  exact List.head_mem hne

theorem sentSplitAux_forall (cs : List Char) :
    ∀ buf out, (∀ s ∈ out, sentProp s) →
      ∀ s ∈ sentSplitAux cs buf out, sentProp s := by
  induction cs with
  | nil =>
      intro buf out hout s hs
      unfold sentSplitAux at hs
      by_cases hb : buf = []
      · rw [if_pos hb] at hs
        exact hout s hs
      · rw [if_neg hb] at hs
        by_cases hstrip : pyStripWs (String.mk buf) = ""
        · simp only [hstrip, if_pos] at hs
          exact hout s (by simpa using hs)
        · simp only [if_neg hstrip] at hs
          rcases List.mem_append.mp hs with h1 | h1
          · exact hout s h1
          · have : s = pyStripWs (String.mk buf) := by simpa using h1
            rw [this]
            exact sentProp_strip _ hstrip
  | cons c cs ih =>
      intro buf out hout s hs
      unfold sentSplitAux at hs
      by_cases hp : sentPunct c = true
      · rw [if_pos hp] at hs
        refine ih [] _ ?_ s hs
        intro u hu
        by_cases hstrip : pyStripWs (String.mk (buf ++ [c])) = ""
        · rw [if_pos hstrip] at hu
          exact hout u hu
        · rw [if_neg hstrip] at hu
          rcases List.mem_append.mp hu with h1 | h1
          · exact hout u h1
          · have : u = pyStripWs (String.mk (buf ++ [c])) := by simpa using h1
            rw [this]
            exact sentProp_strip _ hstrip
      · rw [if_neg hp] at hs
        exact ih (buf ++ [c]) out hout s hs

theorem sentSplitAux_no_punct (cs : List Char) :
    ∀ buf out, (∀ c ∈ cs, sentPunct c = false) →
      sentSplitAux cs buf out =
        out ++ (if pyStripWs (String.mk (buf ++ cs)) = "" then []
                else [pyStripWs (String.mk (buf ++ cs))]) := by
  induction cs with
  | nil =>
      intro buf out _
      unfold sentSplitAux
      rw [List.append_nil]
      by_cases hb : buf = []
      · rw [if_pos hb, hb]
        have h0 : pyStripWs (String.mk []) = "" := rfl
        rw [h0]
        simp
      · rw [if_neg hb]
        by_cases hstrip : pyStripWs (String.mk buf) = ""
        · rw [if_pos hstrip, if_pos hstrip, List.append_nil]
        · rw [if_neg hstrip, if_neg hstrip]
  | cons c cs ih =>
      intro buf out hnp
      unfold sentSplitAux
      have hc : sentPunct c = false := hnp c (List.mem_cons_self c cs)
      rw [if_neg (by simp [hc])]
      rw [ih (buf ++ [c]) out (fun d hd => hnp d (List.mem_cons_of_mem c hd))]
      have : buf ++ [c] ++ cs = buf ++ c :: cs := by simp
      rw [this]

theorem ws_not_sentPunct (c : Char) (h : c.isWhitespace = true) :
    sentPunct c = false := by
  simp only [Char.isWhitespace, Bool.or_eq_true, decide_eq_true_eq] at h
  rcases h with ((h | h) | h) | h <;> rw [h] <;> decide

theorem pyStripWs_eq_empty_of_all_ws (s : String)
    (h : ∀ c ∈ s.data, c.isWhitespace = true) : pyStripWs s = "" := by
  rw [String.ext_iff]
  have : (pyStripWs s).data = pyStripChars (fun c => c.isWhitespace) s.data := rfl
  rw [this]
  have h2 : pyStripChars (fun c => c.isWhitespace) s.data = [] :=
    (pyStripChars_eq_nil_iff _ _).mpr h
  rw [h2]

theorem pyStripWs_ne_empty_of_exists_nonws (s : String)
    (h : ∃ c ∈ s.data, c.isWhitespace = false) : pyStripWs s ≠ "" := by
  intro hcon
  obtain ⟨c, hc, hcw⟩ := h
  have h2 : pyStripChars (fun c => c.isWhitespace) s.data = [] := by
    have : (pyStripWs s).data = pyStripChars (fun c => c.isWhitespace) s.data := rfl
    rw [String.ext_iff] at hcon
    rw [this] at hcon
    simpa using hcon
  have h3 := (pyStripChars_eq_nil_iff _ _).mp h2 c hc
  rw [h3] at hcw
  exact absurd hcw (by simp)

/-- The token count the specification describes for `_sentence_score`:
whitespace tokens whose normalisation is non-empty and not a stop
word. -/
def claimTokenCount (s : String) : Nat :=
  ((pySplitWs s).filter
    (fun t => decide (normToken t ≠ "" ∧ normToken t ∉ _STOPWORDS))).length

theorem score_eq_claimTokenCount (s : String) :
    _sentence_score s = claimTokenCount s := by
  unfold _sentence_score claimTokenCount
  rw [List.filter_map, List.length_map]
  rfl

theorem score_zero_of_all_stop (s : String)
    (h : ∀ t ∈ pySplitWs s, normToken t = "" ∨ normToken t ∈ _STOPWORDS) :
    _sentence_score s = 0 := by
  rw [score_eq_claimTokenCount]
  unfold claimTokenCount
  rw [List.length_eq_zero, List.filter_eq_nil_iff]
  intro t ht
  rcases h t ht with h1 | h1 <;> simp [h1]

/-- Claim C1 counterexample: the transcript "A. B." has at least one
sentence and `max_sentences = -1` is non-positive, yet
`format_meeting_minutes` does not return the fallback string: the Python
slice `scored[:-1]` keeps the first of the two scored sentences. -/
theorem claim1_counterexample :
    1 ≤ (_sentence_split "A. B.").length ∧ (-1 : Int) ≤ 0 ∧
      format_meeting_minutes "A. B." (-1) ≠ "No content to summarise." := by
  refine ⟨by decide, by decide, by decide⟩

/-- Claim C1, amended: for a transcript with at least one sentence and
`max_sentences ≤ 0`, `format_meeting_minutes` returns the fallback
string exactly when `max_sentences = 0` or the number of sentences plus
`max_sentences` is at most 0 (Python's negative slice `scored[:m]`
keeps the first `len(scored) + m` entries). -/
theorem claim1_nonpos_fallback_iff (t : String) (m : Int)
    (hne : _sentence_split t ≠ []) (hm : m ≤ 0) :
    format_meeting_minutes t m = "No content to summarise." ↔
      (m = 0 ∨ ((_sentence_split t).length : Int) + m ≤ 0) := by
  constructor
  · intro h
    by_contra hcon
    have htop : topOf t m ≠ [] := fun hnil =>
      hcon ((topOf_nil_iff_nonpos t m hne hm).mp hnil)
    have hh : selectedHighlights t m ≠ [] := fun hnil =>
      htop ((highlights_nil_iff t m).mp hnil)
    have hfmt := format_of_highlights_ne_nil t m hh
    cases hcase : selectedHighlights t m with
    | nil => exact hh hcase
    | cons x xs =>
        rw [hcase] at hfmt
        rw [hfmt] at h
        exact minutes_join_ne_fallback x xs h
  · intro h
    have htop : topOf t m = [] := (topOf_nil_iff_nonpos t m hne hm).mpr h
    exact format_of_highlights_nil t m ((highlights_nil_iff t m).mpr htop)

/-- Witness for the amended claim C1 at a concrete input. -/
theorem claim1_nonpos_fallback_iff_witness :
    (format_meeting_minutes "A. B." (-2) = "No content to summarise." ↔
      ((-2 : Int) = 0 ∨ ((_sentence_split "A. B.").length : Int) + (-2) ≤ 0)) :=
  claim1_nonpos_fallback_iff "A. B." (-2) (by decide) (by decide)

/-- Claim C2: for `max_sentences ≥ 1` the selection pipeline stable-sorts
the scored triples by score descending (ties by original position),
takes a prefix, and re-sorts by position, so the highlight list is a
subsequence of the sentences in original order, has length
`min max_sentences (number of sentences)`, and equals the full sentence
list whenever `max_sentences` is at least the number of sentences. -/
theorem claim2_selection (t : String) (m : Int) (hm : (1 : Int) ≤ m) :
    List.Sorted rScore (sortedScored t) ∧
    (sortedScored t).Perm (scoredOf t) ∧
    (selectedHighlights t m).Sublist (_sentence_split t) ∧
    (selectedHighlights t m).length =
      min m.toNat (_sentence_split t).length ∧
    (((_sentence_split t).length : Int) ≤ m →
      selectedHighlights t m = _sentence_split t) :=
  ⟨sortedScored_sorted t, sortedScored_perm t, highlights_sublist t m,
    highlights_length t m (by omega), highlights_all t m⟩

/-- Witness for claim C2 at the spec's own example transcript. -/
theorem claim2_selection_witness :
    (selectedHighlights "This is a test. It works well. Short." 5).Sublist
        (_sentence_split "This is a test. It works well. Short.") ∧
      selectedHighlights "This is a test. It works well. Short." 5 =
        _sentence_split "This is a test. It works well. Short." := by
  have h := claim2_selection "This is a test. It works well. Short." 5 (by decide)
  exact ⟨h.2.2.1, h.2.2.2.2 (by decide)⟩

/-- Claim C3: `_sentence_score` counts exactly the whitespace tokens
whose punctuation-stripped, lowercased form is non-empty and not a stop
word; in particular a sentence whose tokens all normalise to stop words
(or to nothing) scores 0. -/
theorem claim3_score (s : String) :
    _sentence_score s = claimTokenCount s ∧
    ((∀ t ∈ pySplitWs s, normToken t = "" ∨ normToken t ∈ _STOPWORDS) →
      _sentence_score s = 0) :=
  ⟨score_eq_claimTokenCount s, score_zero_of_all_stop s⟩

/-- Witness for claim C3 at the spec's stop-word-only example. -/
theorem claim3_score_witness :
    _sentence_score "The it is a" = claimTokenCount "The it is a" ∧
      _sentence_score "The it is a" = 0 := by
  have h := claim3_score "The it is a"
  exact ⟨h.1, h.2 (by decide)⟩

/-- Claim C4: `_sentence_split` never emits an empty or whitespace-only
sentence; a whitespace-only (or empty) input yields no sentences; an
input without terminal punctuation but with a non-whitespace character
yields exactly its trimmed self; and "A. B! C?" yields exactly
"A.", "B!", "C?". -/
theorem claim4_split (t : String) :
    (∀ s ∈ _sentence_split t, s ≠ "" ∧ ∃ c ∈ s.data, c.isWhitespace = false) ∧
    ((∀ c ∈ t.data, c.isWhitespace = true) → _sentence_split t = []) ∧
    ((∀ c ∈ t.data, sentPunct c = false) →
      (∃ c ∈ t.data, c.isWhitespace = false) →
        _sentence_split t = [pyStripWs t]) ∧
    _sentence_split "A. B! C?" = ["A.", "B!", "C?"] := by
  refine ⟨?_, ?_, ?_, by decide⟩
  · intro s hs
    exact sentSplitAux_forall t.data [] [] (by simp) s hs
  · intro h
    have hnp : ∀ c ∈ t.data, sentPunct c = false := fun c hc =>
      ws_not_sentPunct c (h c hc)
    unfold _sentence_split
    rw [sentSplitAux_no_punct t.data [] [] hnp]
    have h0 : String.mk ([] ++ t.data) = t := rfl
    rw [h0, if_pos (pyStripWs_eq_empty_of_all_ws t h)]
    rfl
  · intro hnp hex
    unfold _sentence_split
    rw [sentSplitAux_no_punct t.data [] [] hnp]
    have h0 : String.mk ([] ++ t.data) = t := rfl
    rw [h0, if_neg (pyStripWs_ne_empty_of_exists_nonws t hex)]
    rfl

/-- Witness for claim C4 at concrete inputs: an emitted sentence is
non-blank, a whitespace-only transcript splits to nothing, and an
unterminated transcript is one trimmed sentence. -/
theorem claim4_split_witness :
    ("A." ≠ "" ∧ ∃ c ∈ ("A." : String).data, c.isWhitespace = false) ∧
    _sentence_split "   " = [] ∧
    _sentence_split " hi there " = [pyStripWs " hi there "] := by
  refine ⟨(claim4_split "A. B! C?").1 "A." (by decide),
    (claim4_split "   ").2.1 (by decide),
    (claim4_split " hi there ").2.2.1 (by decide) (by decide)⟩

/-- Claim C5: whenever the highlight list is non-empty,
`format_meeting_minutes` renders exactly the document the specification
lays out line by line (`specLines`), joined with newlines: title, blank
line, Key points heading, blank line, one plain bullet per sentence,
blank line, Action items heading, blank line, the auto-generated notice,
blank line, and one checklist bullet per sentence, all verbatim. -/
theorem claim5_document (t : String) (m : Int)
    (h : selectedHighlights t m ≠ []) :
    format_meeting_minutes t m =
      pyJoin "\n" (specLines (selectedHighlights t m)) := by
  rw [format_of_highlights_ne_nil t m h]
  cases hcase : selectedHighlights t m with
  | nil => exact absurd hcase h
  | cons x xs => exact render_eq x xs

/-- Witness for claim C5 at a concrete transcript. -/
theorem claim5_document_witness :
    format_meeting_minutes "Hello world" 1 =
      pyJoin "\n" (specLines (selectedHighlights "Hello world" 1)) :=
  claim5_document "Hello world" 1 (by decide)

/-- Claim C6: when the transcript splits into zero sentences (in
particular the empty transcript), `format_meeting_minutes` returns the
literal fallback string, for every `max_sentences`. -/
theorem claim6_empty_fallback (t : String) (m : Int)
    (h : _sentence_split t = []) :
    format_meeting_minutes t m = "No content to summarise." :=
  format_of_split_nil t m h

/-- Witness for claim C6 at the empty transcript. -/
theorem claim6_empty_fallback_witness :
    format_meeting_minutes "" 7 = "No content to summarise." :=
  claim6_empty_fallback "" 7 (by decide)

/-- Claim C7: `format_meeting_minutes` is total — for every transcript
and every integer `max_sentences` it returns a string, which is either
the fallback or the rendered minutes document; no other branch exists. -/
theorem claim7_total (t : String) (m : Int) :
    format_meeting_minutes t m = "No content to summarise." ∨
      format_meeting_minutes t m =
        pyJoin "\n" (minutesLines (selectedHighlights t m)) := by
  by_cases h : selectedHighlights t m = []
  · left
    exact format_of_highlights_nil t m h
  · right
    exact format_of_highlights_ne_nil t m h

/-- Claim C8: `format_meeting_minutes` is deterministic — equal arguments
produce identical output strings (the embedding is a pure function of
its two arguments; the source reads no global mutable state and uses no
randomness). -/
theorem claim8_deterministic (t₁ t₂ : String) (m₁ m₂ : Int)
    (ht : t₁ = t₂) (hm : m₁ = m₂) :
    format_meeting_minutes t₁ m₁ = format_meeting_minutes t₂ m₂ := by
  rw [ht, hm]

/-- Witness for claim C8 at a concrete repeated invocation. -/
theorem claim8_deterministic_witness :
    format_meeting_minutes "A." 3 = format_meeting_minutes "A." 3 :=
  claim8_deterministic "A." "A." 3 3 rfl rfl

/-- Claim C9: omitting `max_sentences` defaults it to 6. -/
theorem claim9_default (t : String) :
    format_meeting_minutes t = format_meeting_minutes t 6 := rfl

/-- Claim C10: every output of `format_meeting_minutes` is either exactly
the fallback string or a string beginning with
"# Meeting minutes\n\n## Key points\n\n- ". -/
theorem claim10_shape (t : String) (m : Int) :
    format_meeting_minutes t m = "No content to summarise." ∨
      ∃ r, format_meeting_minutes t m =
        "# Meeting minutes\n\n## Key points\n\n- " ++ r := by
  by_cases h : selectedHighlights t m = []
  · left
    exact format_of_highlights_nil t m h
  · right
    rw [format_of_highlights_ne_nil t m h]
    cases hcase : selectedHighlights t m with
    | nil => exact absurd hcase h
    | cons x xs => exact minutes_join_prefix x xs

end AudioTranscriptionDemo
